import Mathlib

/-!
Shallow embedding of `vcf_stats.py`, a streaming VCF (Variant Call Format)
statistics program, together with proofs about its behaviour.

Python strings are modelled as Lean `String`s and all regex splitting is
re-implemented over the underlying character list (`String.data`), so that
every parsing function is executable by kernel reduction.  Python machine
floats are modelled exactly: the parsed allele frequencies as `ℚ`, and the
transcendental log-likelihood arithmetic over `ℝ` with `Real.log`/`Real.exp`.
Fallible Python code (raised exceptions) is modelled with `Except VErr`.
-/

set_option maxHeartbeats 1000000

namespace VcfStats

/-- Error kinds of the embedded program.  The Python source signals every
malformed-input condition through a single `VCFInputError` carrying a message;
each constructor below corresponds to one distinct `raise` site of that class,
followed by the kinds of uncaught standard-library exceptions the code can
also produce (`NameError` from an undefined identifier, `ValueError` from
`int()`, `IndexError` from list indexing, `KeyError` from dict indexing).
`ethnicityNotEnabled` is the error kind the specification prescribes for
calling `estimate_ethnicity` while disabled; it is listed so that statements
can compare it with what the code actually raises there. -/
inductive VErr where
  | malformedHeader
  | unexpectedHeaderLine
  | noSamples (line : String)
  | duplicateSampleName (name : String)
  | fieldCountMismatch (expected found : Nat)
  | missingGenotypeField (fmt : String)
  | unsupportedPloidy
  | unsupportedAltForm (tok : String)
  | invalidGenotypeToken (tok : String)
  | ethnicityNotEnabled
  | nameError (ident : String)
  | valueError (tok : String)
  | indexError
  | keyError (key : String)
  deriving DecidableEq, Repr

/-- The five row/column keys `"A" "C" "T" "G" "N"` of the nested
substitution-count dictionary built by `init_sample_stats`. -/
inductive Base where
  | A | C | T | G | N
  deriving DecidableEq, Repr

/-- One sample's running statistics record (`init_sample_stats`). -/
structure SampleStats where
  snps : Base → Base → Nat
  sample : String
  ti_tv : ℚ
  variant_count : Nat
  indel_count : Nat
  sv_count : Nat

/-- One sample's running ethnicity log-likelihood totals
(`init_ethnicity_loglik`): the four population keys, real-valued model of
the Python floats. -/
structure EthLoglik where
  sample : String
  AMR : ℝ
  ASN : ℝ
  AFR : ℝ
  EUR : ℝ

/-- One sample's finalized ethnicity posterior record
(returned by `estimate_ethnicity`). -/
structure EthOut where
  sample : String
  AMR : ℝ
  ASN : ℝ
  AFR : ℝ
  EUR : ℝ

/-- The mutable per-session state touched by `update_stats`:
`self.stats` and `self.ethnicity_loglik`. -/
structure LineState where
  stats : List SampleStats
  eth : List EthLoglik

/-- The allele-frequency map extracted from the INFO field: association
list with the insertion-ordered keys of the Python dict. -/
abbrev Info := List (String × ℚ)

/-! ### String primitives

`re.split` on a single-character pattern, `str.strip`, and `\s+` splitting,
re-implemented structurally over `String.data`. -/

/-- Split a character list at every character satisfying `p`, keeping empty
pieces: the behaviour of Python `re.split` on a single-character pattern. -/
def splitChars (p : Char → Bool) : List Char → List (List Char)
  | [] => [[]]
  | c :: rest =>
    if p c then [] :: splitChars p rest
    else
      match splitChars p rest with
      | [] => [[c]]
      | g :: gs => (c :: g) :: gs

/-- `re.split(pat, s)` for a single-character (class) pattern `pat`. -/
def pySplit (s : String) (p : Char → Bool) : List String :=
  (splitChars p s.data).map (fun cs => ⟨cs⟩)

/-- Python `\s` on ASCII input: space, tab, newline, carriage return,
vertical tab, form feed. -/
def isSpaceChar (c : Char) : Bool :=
  c == ' ' || c == '\t' || c == '\n' || c == '\r' || c == '\x0b' || c == '\x0c'

/-- Python `str.strip()`: drop leading and trailing whitespace. -/
def stripChars (cs : List Char) : List Char :=
  ((cs.dropWhile isSpaceChar).reverse.dropWhile isSpaceChar).reverse

/-- `re.split("\s+", line.strip())`: the whitespace-delimited fields of a
line.  On a whitespace-only line Python returns `[""]`. -/
def splitWS (s : String) : List String :=
  let toks := (splitChars isSpaceChar (stripChars s.data)).filter (fun g => !g.isEmpty)
  if toks.isEmpty then [""] else toks.map (fun cs => ⟨cs⟩)

/-! ### Python container primitives -/

/-- Python list indexing with a non-negative index; `IndexError` out of range. -/
def pyGetNat {α : Type} (xs : List α) (i : Nat) : Except VErr α :=
  match xs.get? i with
  | some a => .ok a
  | none => .error .indexError

/-- Python list indexing with a possibly negative index (negative indices
wrap from the end); `IndexError` out of range. -/
def pyGetInt {α : Type} (xs : List α) (i : Int) : Except VErr α :=
  let j : Int := if i < 0 then i + xs.length else i
  if 0 ≤ j then pyGetNat xs j.toNat else .error .indexError

/-- `set.add` on a set of ints represented as a duplicate-free list in
insertion order. -/
def insertIfAbsent (xs : List Int) (x : Int) : List Int :=
  if x ∈ xs then xs else xs ++ [x]

/-- Value of a digit string. -/
def digitsToNat (cs : List Char) : Nat :=
  cs.foldl (fun n c => n * 10 + (c.toNat - 48)) 0

/-- Python `int()` restricted to the genotype tokens that can reach it
(strings over digits and `'.'`): it succeeds exactly on the non-empty
all-digit strings and raises `ValueError` otherwise. -/
def pyInt (s : String) : Except VErr Int :=
  if s.data ≠ [] ∧ s.data.all Char.isDigit then
    .ok (Int.ofNat (digitsToNat s.data))
  else .error (.valueError s)

/-- Python `float()` on the decimal literals occurring as INFO values:
optional sign, integer and/or fractional digits, optional exponent.
Reads a digit run, returning its value, how many digits, and the rest. -/
def readDigitsAux : Nat → Nat → List Char → Nat × Nat × List Char
  | acc, cnt, [] => (acc, cnt, [])
  | acc, cnt, c :: rest =>
    if c.isDigit then readDigitsAux (acc * 10 + (c.toNat - 48)) (cnt + 1) rest
    else (acc, cnt, c :: rest)

/-- Parse the exponent part of a float literal, after the `e`/`E`:
optional sign and a non-empty digit run consuming the rest of the string. -/
def pyFloatExp (mant : ℚ) (r : List Char) : Option ℚ :=
  let sgnr : Int × List Char :=
    match r with
    | '-' :: rr => (-1, rr)
    | '+' :: rr => (1, rr)
    | _ => (1, r)
  let ep := readDigitsAux 0 0 sgnr.2
  if ep.2.1 = 0 ∨ !ep.2.2.isEmpty then none
  else some (mant * (10 : ℚ) ^ (sgnr.1 * (ep.1 : Int)))

/-- Python `float()` on decimal literals, as an exact rational
(`none` models `ValueError`). -/
def pyFloat? (s : String) : Option ℚ :=
  let cs := s.data
  let sgncs : ℚ × List Char :=
    match cs with
    | '-' :: r => (-1, r)
    | '+' :: r => (1, r)
    | _ => (1, cs)
  let ipp := readDigitsAux 0 0 sgncs.2
  let fpp : Nat × Nat × List Char :=
    match ipp.2.2 with
    | '.' :: r => readDigitsAux 0 0 r
    | _ => (0, 0, ipp.2.2)
  if ipp.2.1 = 0 ∧ fpp.2.1 = 0 then none
  else
    let mant : ℚ := sgncs.1 * ((ipp.1 : ℚ) + (fpp.1 : ℚ) / (10 : ℚ) ^ fpp.2.1)
    match fpp.2.2 with
    | [] => some mant
    | 'e' :: r => pyFloatExp mant r
    | 'E' :: r => pyFloatExp mant r
    | _ => none

/-! ### Embedded source functions (`class vcf_stats`) -/

/-- `init_sample_stats`: fresh statistics record for a sample, all counts
zero and `ti-tv` 0.0. -/
def init_sample_stats (name : String) : SampleStats :=
  { snps := fun _ _ => 0
    sample := name
    ti_tv := 0
    variant_count := 0
    indel_count := 0
    sv_count := 0 }

/-- `init_ethnicity_loglik`: fresh log-likelihood record, all four
population totals 0.0. -/
def init_ethnicity_loglik (name : String) : EthLoglik :=
  { sample := name, AMR := 0, ASN := 0, AFR := 0, EUR := 0 }

/-- The per-session state right after header parsing (`parse_stats` lines
285-290): one stats record per sample, and one log-likelihood record per
sample only when ethnicity estimation is enabled. -/
def init_state (names : List String) (enable_ethnicity : Bool) : LineState :=
  { stats := names.map init_sample_stats
    eth := if enable_ethnicity then names.map init_ethnicity_loglik else [] }

/-- `is_transition`: is a reference/alternate base pair one of the four
transitions A→G, G→A, C→T, T→C? -/
def is_transition (ref alt : Base) : Bool :=
  (ref == .A && alt == .G) || (ref == .G && alt == .A) ||
  (ref == .C && alt == .T) || (ref == .T && alt == .C)

/-- `titv`: transition and transversion totals over the 4×4 submatrix of
bases `('A','C','G','T')` (the `N` row and column are never read), and
their ratio; a zero transversion total gives 0.0 via the
`ZeroDivisionError` handler. -/
def titv (sample_stats : SampleStats) : ℚ :=
  let bases : List Base := [.A, .C, .G, .T]
  let titvCounts :=
    bases.foldl (fun acc ref =>
      bases.foldl (fun (acc : Nat × Nat) alt =>
        if is_transition ref alt then (acc.1 + sample_stats.snps ref alt, acc.2)
        else (acc.1, acc.2 + sample_stats.snps ref alt)) acc) ((0, 0) : Nat × Nat)
  if titvCounts.2 = 0 then 0 else (titvCounts.1 : ℚ) / (titvCounts.2 : ℚ)

/-- `update_sample_titv`: write each sample's finalized ratio. -/
def update_sample_titv (stats : List SampleStats) : List SampleStats :=
  stats.map (fun st => { st with ti_tv := titv st })

/-- `find_gt_index`: position of the `GT` token among the colon-separated
terms of the FORMAT field; `VCFInputError` when absent. -/
def find_gt_index (format_string : String) : Except VErr Nat :=
  match (pySplit format_string (· == ':')).findIdx? (· == "GT") with
  | some i => .ok i
  | none => .error (.missingGenotypeField format_string)

/-- The duplicate scan of `parse_header`: walk the names keeping the set of
names already seen, failing on the first repeat. -/
def checkDup (seen : List String) : List String → Except VErr Unit
  | [] => .ok ()
  | n :: rest =>
    if n ∈ seen then .error (.duplicateSampleName n)
    else checkDup (n :: seen) rest

/-- `parse_header`: split the column-header line on whitespace; fewer than
10 fields is the no-samples error; fields from index 9 on are the sample
names, which must not repeat.  Returns the total field count and names. -/
def parse_header (column_heads_line : String) : Except VErr (Nat × List String) := do
  let fields := splitWS column_heads_line
  if fields.length < 10 then .error (.noSamples column_heads_line)
  else do
    let names := fields.drop 9
    checkDup [] names
    pure (fields.length, names)

/-- `re.match('<.*>', gt)`: the token starts with `<` and contains a later `>`. -/
def matchesAngleId (gt : String) : Bool :=
  match gt.data with
  | '<' :: rest => rest.contains '>'
  | _ => false

/-- `re.search('\[|\]', gt)`: the token contains a breakend bracket. -/
def hasBreakend (gt : String) : Bool :=
  gt.data.contains '[' || gt.data.contains ']'

/-- `re.search('[^0-9\.]', gt)`: the token contains a character that is
neither a decimal digit nor `'.'`. -/
def hasIllegalChar (gt : String) : Bool :=
  gt.data.any (fun c => !(c.isDigit || c == '.'))

/-- The per-token validation loop of `parse_genotype`. -/
def check_tokens : List String → Except VErr Unit
  | [] => .ok ()
  | gt :: rest =>
    if matchesAngleId gt then .error (.unsupportedAltForm gt)
    else if hasBreakend gt then .error (.unsupportedAltForm gt)
    else if hasIllegalChar gt then .error (.invalidGenotypeToken gt)
    else check_tokens rest

/-- `parse_genotype`: pick the colon-separated sub-field at `gt_index`,
split it on `|` or `/`, reject three or more tokens (polyploid), and
validate each token's characters. -/
def parse_genotype (input_string : String) (gt_index : Nat) :
    Except VErr (List String) := do
  let gt_string ← pyGetNat (pySplit input_string (· == ':')) gt_index
  let genotypes := pySplit gt_string (fun c => c == '|' || c == '/')
  if genotypes.length ≥ 3 then .error .unsupportedPloidy
  else do
    check_tokens genotypes
    pure genotypes

/-- The recognized INFO keys (`af_keys` in `parse_info`). -/
def af_keys : List String := ["AMR_AF", "ASN_AF", "AFR_AF", "EUR_AF"]

/-- Python dict assignment `info[key] = v` on an insertion-ordered
association list. -/
def assocSet : Info → String → ℚ → Info
  | [], k, v => [(k, v)]
  | (k', v') :: rest, k, v =>
    if k' = k then (k, v) :: rest else (k', v') :: assocSet rest k v

/-- `parse_info`: split the INFO field on `;`; a piece contributes exactly
when it splits on `=` into two parts, its key is one of the four recognized
allele-frequency keys, and its value parses as a float (the `ValueError`
handler silently skips every other piece). -/
def parse_info (info_string : String) : Info :=
  (pySplit info_string (· == ';')).foldl (fun info field =>
    match pySplit field (· == '=') with
    | [key, value] =>
      if key ∈ af_keys then
        match pyFloat? value with
        | some v => assocSet info key v
        | none => info
      else info
    | _ => info) []

/-- The `key_map` dict of `update_ethnicity`: INFO key to population key. -/
def key_map_lookup (key : String) : Option String :=
  if key = "AMR_AF" then some "AMR"
  else if key = "ASN_AF" then some "ASN"
  else if key = "AFR_AF" then some "AFR"
  else if key = "EUR_AF" then some "EUR"
  else none

/-- The allele-frequency correction of `update_ethnicity`: a frequency
within `0.0001` of 1.0 becomes 0.995, one within `0.0001` of 0.0 becomes
0.005 (the INFO annotation has two-decimal precision, so exact 0/1 would
otherwise produce a log of zero). -/
def clampAF (af : ℚ) : ℚ :=
  if |1 - af| < 1 / 10000 then 995 / 1000
  else if |af| < 1 / 10000 then 5 / 1000
  else af

/-- `self.ethnicity_loglik[i][pop] += x` for a population key. -/
def addPop (e : EthLoglik) (pop : String) (x : ℝ) : EthLoglik :=
  if pop = "AMR" then { e with AMR := e.AMR + x }
  else if pop = "ASN" then { e with ASN := e.ASN + x }
  else if pop = "AFR" then { e with AFR := e.AFR + x }
  else if pop = "EUR" then { e with EUR := e.EUR + x }
  else e

/-- Python `math.log`: raises `ValueError: math domain error` on a
non-positive argument, and is the real logarithm otherwise. -/
noncomputable def math_log (x : ℚ) : Except VErr ℝ :=
  if x ≤ 0 then .error (.valueError "math domain error")
  else .ok (Real.log (x : ℝ))

/-- `update_ethnicity`: for each key of the frequency map, clamp the
frequency, then add `ln af` (variant evidence) or `ln (1-af)` (no-variant
evidence) to that population's running total of the sample at
`sample_index`.  The logarithm is computed before the dictionary write
and can raise `ValueError` on a non-positive argument, exactly as
`math.log` does. -/
noncomputable def update_ethnicity (sample_index : Nat) (is_variant : Bool) :
    Info → List EthLoglik → Except VErr (List EthLoglik)
  | [], eth => .ok eth
  | (key, af0) :: rest, eth =>
    let af := clampAF af0
    match (if is_variant then math_log af else math_log (1 - af)) with
    | .error e => .error e
    | .ok loglik =>
      match key_map_lookup key with
      | some pop =>
        match eth.get? sample_index with
        | some e =>
          update_ethnicity sample_index is_variant rest
            (eth.set sample_index (addPop e pop loglik))
        | none => .error .indexError
      | none => .error (.keyError key)

/-- The ethnicity dispatch at the top of the per-allele loop of
`update_stats`: a missing token contributes nothing, `'0'` is no-variant
evidence, anything else is variant evidence.  (The guard
`if self.update_ethnicity:` in the source tests a bound method, which is
always truthy, so this block runs unconditionally.) -/
noncomputable def eth_step (i : Nat) (info : Info) (allele_value : String)
    (eth : List EthLoglik) : Except VErr (List EthLoglik) :=
  if allele_value = "." then .ok eth
  else if allele_value = "0" then update_ethnicity i false info eth
  else update_ethnicity i true info eth

/-- The classification chain at the top of `update_stats`: 0 = SNP,
1 = insertion, 2 = deletion, 3 = structural variant. -/
def vartypeOf (ref_len alt_len : Nat) : Nat :=
  if ref_len = 1 ∧ alt_len = 1 then 0
  else if alt_len > ref_len ∧ ref_len = 1 then 1
  else if alt_len < ref_len ∧ alt_len = 1 then 2
  else 3

/-- Key lookup in the base-indexed substitution dictionary: any string
other than the five base keys raises `KeyError`. -/
def baseKey (s : String) : Except VErr Base :=
  if s = "A" then .ok .A
  else if s = "C" then .ok .C
  else if s = "T" then .ok .T
  else if s = "G" then .ok .G
  else if s = "N" then .ok .N
  else .error (.keyError s)

/-- Increment one cell of a substitution matrix. -/
def updateSnps (m : Base → Base → Nat) (r a : Base) : Base → Base → Nat :=
  fun x y => if x = r ∧ y = a then m x y + 1 else m x y

/-- `self.stats[i][SNPS_KEY][ref][alt] += 1`: index the stats list, then
the reference row and alternate column of the substitution dictionary. -/
def snpsIncr (stats : List SampleStats) (i : Nat) (ref alt : String) :
    Except VErr (List SampleStats) := do
  let st ← pyGetNat stats i
  let r ← baseKey ref
  let a ← baseKey alt
  pure (stats.set i { st with snps := updateSnps st.snps r a })

/-- The body of the per-allele loop of `update_stats` for one allele token:
ethnicity evidence first, then (for a non-missing, non-reference token)
`int()` conversion, recording the alternate index in the `variants` set,
and the substitution-matrix update when that alternate is a SNP. -/
noncomputable def process_allele (ref : String) (alts : List String)
    (alt_types : List Nat) (i : Nat) (info : Info) (allele_value : String)
    (acc : LineState × List Int) : Except VErr (LineState × List Int) := do
  let eth' ← eth_step i info allele_value acc.1.eth
  if allele_value ≠ "." ∧ allele_value ≠ "0" then do
    let n ← pyInt allele_value
    let alt_index : Int := n - 1
    let variants' := insertIfAbsent acc.2 alt_index
    let t ← pyGetInt alt_types alt_index
    if t = 0 then do
      let alt ← pyGetInt alts alt_index
      let stats' ← snpsIncr acc.1.stats i ref alt
      pure (⟨stats', eth'⟩, variants')
    else pure (⟨acc.1.stats, eth'⟩, variants')
  else pure (⟨acc.1.stats, eth'⟩, acc.2)

/-- The per-allele loop of `update_stats` over one genotype's tokens. -/
noncomputable def gt_fold (ref : String) (alts : List String)
    (alt_types : List Nat) (i : Nat) (info : Info) :
    List String → LineState × List Int → Except VErr (LineState × List Int)
  | [], acc => .ok acc
  | av :: rest, acc => do
    let acc' ← process_allele ref alts alt_types i info av acc
    gt_fold ref alts alt_types i info rest acc'

/-- One iteration of the `for variant_index in variants` loop of
`update_stats`: always bump `variant_count`, bump `indel_count` for an
insertion or deletion, `sv_count` for a structural variant. -/
def count_step (alt_types : List Nat) (i : Nat) (ls : LineState) (v : Int) :
    Except VErr LineState := do
  let vartype ← pyGetInt alt_types v
  let st ← pyGetNat ls.stats i
  pure ⟨ls.stats.set i
      { st with
        variant_count := st.variant_count + 1
        indel_count := st.indel_count + (if vartype = 1 ∨ vartype = 2 then 1 else 0)
        sv_count := st.sv_count + (if vartype = 3 then 1 else 0) },
    ls.eth⟩

/-- The `for variant_index in variants` loop of `update_stats`. -/
def var_fold (alt_types : List Nat) (i : Nat) :
    List Int → LineState → Except VErr LineState
  | [], ls => .ok ls
  | v :: rest, ls => do
    let ls' ← count_step alt_types i ls v
    var_fold alt_types i rest ls'

/-- Processing of one sample's genotype inside `update_stats`: collect the
distinct alternate indices while performing the per-allele updates, then
count each distinct index once. -/
noncomputable def process_genotype (ref : String) (alts : List String)
    (alt_types : List Nat) (i : Nat) (info : Info) (gt : List String)
    (ls : LineState) : Except VErr LineState := do
  let acc ← gt_fold ref alts alt_types i info gt (ls, [])
  var_fold alt_types i acc.2 acc.1

/-- The `i = 0; for gt in genotypes: ...; i += 1` loop of `update_stats`. -/
noncomputable def body_fold (ref : String) (alts : List String)
    (alt_types : List Nat) (info : Info) :
    Nat → List (List String) → LineState → Except VErr LineState
  | _, [], ls => .ok ls
  | i, gt :: rest, ls => do
    let ls' ← process_genotype ref alts alt_types i info gt ls
    body_fold ref alts alt_types info (i + 1) rest ls'

/-- `update_stats`: classify every alternate by the reference/alternate
lengths, then run the per-sample loop. -/
noncomputable def update_stats (ref : String) (alts : List String)
    (genotypes : List (List String)) (info : Info) (ls : LineState) :
    Except VErr LineState :=
  let alt_types := alts.map (fun alt => vartypeOf ref.length alt.length)
  body_fold ref alts alt_types info 0 genotypes ls

/-- `parse_body_line`: split the body line on whitespace and check the
field count; reference is field 3, the alternates are field 4 split on
commas; the frequency map comes from the INFO field (index 7) only when
ethnicity is enabled, otherwise it is empty; the genotype offset comes
from the FORMAT field (index 8); fields 9 onward hold one genotype per
sample. -/
noncomputable def parse_body_line (enable_ethnicity : Bool)
    (total_fields total_samples : Nat) (line : String) :
    Except VErr (String × List String × List (List String) × Info) := do
  let fields := splitWS line
  if fields.length ≠ total_fields then
    .error (.fieldCountMismatch total_fields fields.length)
  else do
    let ref ← pyGetNat fields 3
    let altsField ← pyGetNat fields 4
    let alts := pySplit altsField (· == ',')
    let info ←
      if enable_ethnicity then do
        let infoField ← pyGetNat fields 7
        pure (parse_info infoField)
      else pure ([] : Info)
    let fmtField ← pyGetNat fields 8
    let gt_index ← find_gt_index fmtField
    let genotypes ← (List.range total_samples).mapM (fun i => do
      let sampleField ← pyGetNat fields (9 + i)
      parse_genotype sampleField gt_index)
    pure (ref, alts, genotypes, info)

/-- The body loop of `parse_stats`: parse each body line and fold its
statistics into the state. -/
noncomputable def process_body_lines (enable_ethnicity : Bool)
    (total_fields total_samples : Nat) :
    List String → LineState → Except VErr LineState
  | [], ls => .ok ls
  | line :: rest, ls => do
    let parsed ← parse_body_line enable_ethnicity total_fields total_samples line
    let ls' ← update_stats parsed.1 parsed.2.1 parsed.2.2.1 parsed.2.2.2 ls
    process_body_lines enable_ethnicity total_fields total_samples rest ls'

/-- Finalization of one sample in `estimate_ethnicity`: unnormalized
posterior `exp(loglik) × 0.25` per population, normalized by the total;
a zero total (the `ZeroDivisionError` handler) reports all four as 0.0. -/
noncomputable def estimate_sample (l : EthLoglik) : EthOut :=
  let pASN := Real.exp l.ASN * (1 / 4)
  let pAMR := Real.exp l.AMR * (1 / 4)
  let pAFR := Real.exp l.AFR * (1 / 4)
  let pEUR := Real.exp l.EUR * (1 / 4)
  let total := pASN + pAMR + pAFR + pEUR
  if total = 0 then
    { sample := l.sample, AMR := 0, ASN := 0, AFR := 0, EUR := 0 }
  else
    { sample := l.sample
      AMR := pAMR / total
      ASN := pASN / total
      AFR := pAFR / total
      EUR := pEUR / total }

/-- `estimate_ethnicity`: when the construction-time flag is off, the
source executes `raise RunTimeError(...)`, but `RunTimeError` is an
undefined name (Python's built-in class is spelled `RuntimeError`), so
evaluating it raises `NameError` before any exception object is built.
When enabled, finalize every sample's posterior record. -/
noncomputable def estimate_ethnicity (enable_ethnicity : Bool)
    (ethnicity_loglik : List EthLoglik) : Except VErr (List EthOut) :=
  if enable_ethnicity = false then .error (.nameError "RunTimeError")
  else .ok (ethnicity_loglik.map estimate_sample)

/-! ### Specification-side and proof-side definitions -/

/-- The transition total named by the specification: the cells
{A→G, G→A, C→T, T→C} of the substitution matrix. -/
def tiSpec (st : SampleStats) : Nat :=
  st.snps .A .G + st.snps .G .A + st.snps .C .T + st.snps .T .C

/-- The transversion total named by the specification: every other base
pair over {A,C,G,T}, the N row and column excluded. -/
def tvSpec (st : SampleStats) : Nat :=
  st.snps .A .A + st.snps .A .C + st.snps .A .T +
  st.snps .C .A + st.snps .C .C + st.snps .C .G +
  st.snps .G .C + st.snps .G .G + st.snps .G .T +
  st.snps .T .A + st.snps .T .G + st.snps .T .T

/-- The `variant_count` entry of the sample record at index `j`. -/
def vc (stats : List SampleStats) (j : Nat) : Option Nat :=
  (stats.get? j).map (·.variant_count)

/-- The three counters of the sample record at index `j`. -/
def counters (stats : List SampleStats) (j : Nat) : Option (Nat × Nat × Nat) :=
  (stats.get? j).map (fun st => (st.variant_count, st.indel_count, st.sv_count))

/-- The set of distinct alternate indices referenced by one genotype's
non-missing, non-reference tokens, in first-occurrence order: the value
the `variants` set of `update_stats` holds after the per-allele loop. -/
def gt_variants : List String → List Int → List Int
  | [], acc => acc
  | av :: rest, acc =>
    gt_variants rest
      (if av ≠ "." ∧ av ≠ "0" then
        match pyInt av with
        | .ok n => insertIfAbsent acc (n - 1)
        | .error _ => acc
      else acc)

/-- Pointwise order on sample records: every substitution-matrix cell and
every counter is no smaller. -/
def SampleLE (a b : SampleStats) : Prop :=
  (∀ r c, a.snps r c ≤ b.snps r c) ∧ a.variant_count ≤ b.variant_count ∧
  a.indel_count ≤ b.indel_count ∧ a.sv_count ≤ b.sv_count

/-- Pointwise order on stats lists: same length, every record no smaller. -/
def StatsLE (s t : List SampleStats) : Prop :=
  s.length = t.length ∧
  ∀ j a b, s.get? j = some a → t.get? j = some b → SampleLE a b

/-- Decidable equality of `Except` results, used to phrase branch tests. -/
instance instDecEqExcept {ε α : Type} [DecidableEq ε] [DecidableEq α] :
    DecidableEq (Except ε α) := fun x y =>
  match x, y with
  | .ok a, .ok b =>
    if h : a = b then isTrue (by rw [h])
    else isFalse (fun he => h (Except.ok.inj he))
  | .error e, .error f =>
    if h : e = f then isTrue (by rw [h])
    else isFalse (fun he => h (Except.error.inj he))
  | .ok _, .error _ => isFalse Except.noConfusion
  | .error _, .ok _ => isFalse Except.noConfusion

/-- Does one allele token contribute a substitution-matrix increment at
row `r`, column `c`?  Mirrors the branch path of the per-allele loop of
`update_stats`: the token is non-missing and non-reference, parses as an
integer, its alternate index classifies as SNP, and the reference string
and that alternate string are the dictionary keys `r` and `c`. -/
def snp_hit (ref : String) (alts : List String) (alt_types : List Nat)
    (r c : Base) (av : String) : Bool :=
  if av ≠ "." ∧ av ≠ "0" then
    match pyInt av with
    | .ok n =>
      decide (pyGetInt alt_types (n - 1) = .ok 0) &&
        match pyGetInt alts (n - 1) with
        | .ok alt => decide (baseKey ref = .ok r) && decide (baseKey alt = .ok c)
        | .error _ => false
    | .error _ => false
  else false

/-- The substitution-matrix cell `(r, c)` of the sample record at `j`. -/
def snpsAt (stats : List SampleStats) (j : Nat) (r c : Base) : Option Nat :=
  (stats.get? j).map (fun st => st.snps r c)

/-! ### Helper lemmas -/


theorem exceptBind_ok {α β : Type} {x : Except VErr α} {f : α → Except VErr β} {b : β} :
    x >>= f = .ok b ↔ ∃ a, x = .ok a ∧ f a = .ok b := by
  cases x with
  | ok a => simp [Bind.bind, Except.bind]
  | error e => simp [Bind.bind, Except.bind]

theorem pyGetNat_ok {α : Type} {xs : List α} {i : Nat} {a : α} :
    pyGetNat xs i = .ok a ↔ xs.get? i = some a := by
  unfold pyGetNat
  cases h : xs.get? i <;> simp

theorem checkDup_ok_iff (names : List String) : ∀ seen,
    (checkDup seen names = .ok () ↔ names.Nodup ∧ ∀ x ∈ names, x ∉ seen) := by
  induction names with
  | nil => intro seen; simp [checkDup]
  | cons n rest ih =>
    intro seen
    by_cases hn : n ∈ seen
    · simp [checkDup, hn]
    · rw [checkDup, if_neg hn, ih]
      constructor
      · rintro ⟨hnd, hall⟩
        have hnr : n ∉ rest := fun hmem => (hall n hmem) (by simp)
        refine ⟨List.nodup_cons.mpr ⟨hnr, hnd⟩, ?_⟩
        intro x hx
        rcases List.mem_cons.mp hx with rfl | hx'
        · exact hn
        · exact fun hs => (hall x hx') (List.mem_cons_of_mem _ hs)
      · rintro ⟨hnd, hall⟩
        obtain ⟨hnr, hnd'⟩ := List.nodup_cons.mp hnd
        refine ⟨hnd', fun x hx hs => ?_⟩
        rcases List.mem_cons.mp hs with rfl | hs'
        · exact hnr hx
        · exact (hall x (List.mem_cons_of_mem _ hx)) hs'

theorem checkDup_err (names : List String) : ∀ seen,
    checkDup seen names ≠ .ok () →
    ∃ n, checkDup seen names = .error (.duplicateSampleName n) := by
  induction names with
  | nil => intro seen h; exact absurd rfl h
  | cons n rest ih =>
    intro seen h
    by_cases hn : n ∈ seen
    · exact ⟨n, by rw [checkDup, if_pos hn]⟩
    · rw [checkDup, if_neg hn] at h ⊢
      exact ih (n :: seen) h

/-! ### Claim C5 -/

/-- Claim C5: for every column-header line that splits on whitespace into
at least 10 fields with no repeated name from the 10th field onward,
`parse_header` returns the sample names in file order with count equal to
the total field count minus 9; it fails with the no-samples error when
fewer than 10 fields result, and fails with the duplicate-sample-name
error if and only if some sample name repeats. -/
theorem C5_parse_header (line : String) :
    (10 ≤ (splitWS line).length → ((splitWS line).drop 9).Nodup →
      parse_header line = .ok ((splitWS line).length, (splitWS line).drop 9) ∧
      ((splitWS line).drop 9).length = (splitWS line).length - 9) ∧
    ((splitWS line).length < 10 → parse_header line = .error (.noSamples line)) ∧
    (10 ≤ (splitWS line).length →
      ((∃ n, parse_header line = .error (.duplicateSampleName n)) ↔
        ¬((splitWS line).drop 9).Nodup)) := by
  refine ⟨?_, ?_, ?_⟩
  · intro h10 hnd
    have hck : checkDup [] ((splitWS line).drop 9) = .ok () :=
      (checkDup_ok_iff _ _).mpr ⟨hnd, by simp⟩
    constructor
    · show parse_header line = _
      unfold parse_header
      rw [if_neg (not_lt.mpr h10)]
      rw [show (do
            checkDup [] ((splitWS line).drop 9)
            pure (((splitWS line).length, (splitWS line).drop 9) :
              Nat × List String) : Except VErr (Nat × List String)) =
          checkDup [] ((splitWS line).drop 9) >>= fun _ =>
            pure ((splitWS line).length, (splitWS line).drop 9) from rfl]
      rw [hck]
      rfl
    · exact List.length_drop 9 _
  · intro h
    unfold parse_header
    rw [if_pos h]
  · intro h10
    constructor
    · rintro ⟨n, hn⟩ hnd
      have hck : checkDup [] ((splitWS line).drop 9) = .ok () :=
        (checkDup_ok_iff _ _).mpr ⟨hnd, by simp⟩
      rw [show parse_header line = checkDup [] ((splitWS line).drop 9) >>= fun _ =>
            pure ((splitWS line).length, (splitWS line).drop 9) by
          unfold parse_header; rw [if_neg (not_lt.mpr h10)]] at hn
      rw [hck] at hn
      exact Except.noConfusion hn
    · intro hnd
      have hne : checkDup [] ((splitWS line).drop 9) ≠ .ok () := fun hck =>
        hnd ((checkDup_ok_iff _ _).mp hck).1
      obtain ⟨n, hn⟩ := checkDup_err _ _ hne
      refine ⟨n, ?_⟩
      rw [show parse_header line = checkDup [] ((splitWS line).drop 9) >>= fun _ =>
            pure ((splitWS line).length, (splitWS line).drop 9) by
          unfold parse_header; rw [if_neg (not_lt.mpr h10)]]
      rw [hn]
      rfl

/-- Witness for C5 at a concrete 11-field header line with two distinct
sample names. -/
theorem C5_parse_header_witness :
    10 ≤ (splitWS "#CHROM POS ID REF ALT QUAL FILTER INFO FORMAT S1 S2").length ∧
    ((splitWS "#CHROM POS ID REF ALT QUAL FILTER INFO FORMAT S1 S2").drop 9).Nodup ∧
    parse_header "#CHROM POS ID REF ALT QUAL FILTER INFO FORMAT S1 S2" =
      .ok ((splitWS "#CHROM POS ID REF ALT QUAL FILTER INFO FORMAT S1 S2").length,
        (splitWS "#CHROM POS ID REF ALT QUAL FILTER INFO FORMAT S1 S2").drop 9) :=
  ⟨of_decide_eq_true rfl, of_decide_eq_true rfl,
    ((C5_parse_header "#CHROM POS ID REF ALT QUAL FILTER INFO FORMAT S1 S2").1
      (of_decide_eq_true rfl) (of_decide_eq_true rfl)).1⟩

/-! ### Claim C7 -/

/-- Claim C7: for every sample's finalized substitution matrix, `titv`
sums the cells {A→G, G→A, C→T, T→C} as transitions and all other pairs
over bases {A,C,G,T} (every N row and column excluded) as transversions,
returning ti/tv, except that a zero transversion total (in particular an
all-zero matrix) yields exactly 0.0, never infinity or NaN. -/
theorem C7_titv :
    (∀ st : SampleStats,
      titv st = if tvSpec st = 0 then 0
        else ((tiSpec st : Nat) : ℚ) / ((tvSpec st : Nat) : ℚ)) ∧
    titv (init_sample_stats "s") = 0 := by
  constructor
  · intro st
    have h2 : 0 + st.snps .A .G + st.snps .C .T + st.snps .G .A + st.snps .T .C
        = tiSpec st := by unfold tiSpec; omega
    have h1 : 0 + st.snps .A .A + st.snps .A .C + st.snps .A .T + st.snps .C .A
        + st.snps .C .C + st.snps .C .G + st.snps .G .C + st.snps .G .G
        + st.snps .G .T + st.snps .T .A + st.snps .T .G + st.snps .T .T
        = tvSpec st := by unfold tvSpec; omega
    rw [show titv st = (if 0 + st.snps .A .A + st.snps .A .C + st.snps .A .T
        + st.snps .C .A + st.snps .C .C + st.snps .C .G + st.snps .G .C
        + st.snps .G .G + st.snps .G .T + st.snps .T .A + st.snps .T .G
        + st.snps .T .T = 0 then 0
      else ((0 + st.snps .A .G + st.snps .C .T + st.snps .G .A
          + st.snps .T .C : Nat) : ℚ) /
        ((0 + st.snps .A .A + st.snps .A .C + st.snps .A .T + st.snps .C .A
          + st.snps .C .C + st.snps .C .G + st.snps .G .C + st.snps .G .G
          + st.snps .G .T + st.snps .T .A + st.snps .T .G
          + st.snps .T .T : Nat) : ℚ)) from rfl, h1, h2]
  · rfl

/-! ### Claim C4 -/

/-- Claim C4: invoking `estimate_ethnicity` while the construction-time
ethnicity flag is disabled fails — but through the undefined identifier
`RunTimeError` (a `NameError`), not through an intentionally raised
ethnicity-not-enabled error, so the failure kind the specification
prescribes is never produced. -/
theorem C4_ethnicity_disabled (ethnicity_loglik : List EthLoglik) :
    estimate_ethnicity false ethnicity_loglik = .error (.nameError "RunTimeError") ∧
    estimate_ethnicity false ethnicity_loglik ≠ .error .ethnicityNotEnabled := by
  refine ⟨rfl, ?_⟩
  intro h
  rw [show estimate_ethnicity false ethnicity_loglik
      = .error (.nameError "RunTimeError") from rfl] at h
  simp at h

/-! ### Claim C3 -/

/-- Claim C3: at ethnicity finalization, a sample whose four
log-likelihood totals are all still at their initial 0.0 (no accumulated
allele-frequency evidence) is reported with all four posteriors equal to
1/4 — not 0.0 as specified: `exp(0) = 1` makes the normalizing total 1,
so the zero-total handler is never reached.  For every sample the four
reported posteriors sum to exactly 1. -/
theorem C3_ethnicity_normalization :
    estimate_sample { sample := "s", AMR := 0, ASN := 0, AFR := 0, EUR := 0 } =
      { sample := "s", AMR := 1 / 4, ASN := 1 / 4, AFR := 1 / 4, EUR := 1 / 4 } ∧
    (∀ l : EthLoglik,
      (estimate_sample l).AMR + (estimate_sample l).ASN +
        (estimate_sample l).AFR + (estimate_sample l).EUR = 1) := by
  constructor
  · simp only [estimate_sample, Real.exp_zero, one_mul]
    norm_num
  · intro l
    simp only [estimate_sample]
    have htot : (0 : ℝ) < Real.exp l.ASN * (1 / 4) + Real.exp l.AMR * (1 / 4)
        + Real.exp l.AFR * (1 / 4) + Real.exp l.EUR * (1 / 4) := by positivity
    rw [if_neg (ne_of_gt htot)]
    field_simp
    ring

/-! ### Claim C9 -/

/-- Claim C9: the statistics update is not total on the tokens the
genotype decoder accepts.  `parse_genotype` accepts any token made of
digits and `'.'` (and any in-range digit), so `".."` and — at a line with
a single alternate — `"2"` pass validation; `update_stats` then fails on
them with an uncaught `ValueError` from `int()` and an uncaught
`IndexError` from `alt_types[alt_index]` respectively. -/
theorem C9_update_not_total :
    parse_genotype ".." 0 = .ok [".."] ∧
    update_stats "A" ["G"] [[".."]] [] ⟨[init_sample_stats "s"], []⟩
      = .error (.valueError "..") ∧
    parse_genotype "2" 0 = .ok ["2"] ∧
    update_stats "A" ["G"] [["2"]] [] ⟨[init_sample_stats "s"], []⟩
      = .error .indexError :=
  ⟨rfl, rfl, rfl, rfl⟩

/-! ### Claim C1 (counterexample) -/

/-- Counterexample to claim C1: at reference `"A"` with the two
differently-classified alternates `"G"` (SNP) and `"GT"` (insertion), a
single sample whose genotype `1/2` references both distinct alternate
indices gets `variant_count` incremented by 2 for the one line — the
`for variant_index in variants` loop bumps the counter once per distinct
index — not by exactly 1 as claimed. -/
theorem C1_counterexample :
    (update_stats "A" ["G", "GT"] [["1", "2"]] [] ⟨[init_sample_stats "s"], []⟩).map
        (fun ls => ls.stats.map (·.variant_count)) = .ok [2] ∧
    (update_stats "A" ["G", "GT"] [["1", "2"]] [] ⟨[init_sample_stats "s"], []⟩).map
        (fun ls => ls.stats.map (·.variant_count)) ≠ .ok [1] := by
  refine ⟨rfl, ?_⟩
  rw [show (update_stats "A" ["G", "GT"] [["1", "2"]] []
      ⟨[init_sample_stats "s"], []⟩).map (fun ls => ls.stats.map (·.variant_count))
      = .ok [2] from rfl]
  simp

/-! ### Claim C2 -/

/-- Counterexample to claim C2: a homozygous genotype `1/1` at a line
with reference `"A"` and single alternate `"G"` increments that sample's
`snps[A][G]` cell by 2 — the substitution-matrix update sits inside the
per-allele-token loop, so it runs once per non-reference token, not once
per distinct alternate index — while `variant_count` is incremented by 1. -/
theorem C2_counterexample :
    (update_stats "A" ["G"] [["1", "1"]] [] ⟨[init_sample_stats "s"], []⟩).map
        (fun ls => ls.stats.map (fun st => (st.snps .A .G, st.variant_count)))
      = .ok [(2, 1)] ∧
    (update_stats "A" ["G"] [["1", "1"]] [] ⟨[init_sample_stats "s"], []⟩).map
        (fun ls => ls.stats.map (fun st => (st.snps .A .G, st.variant_count)))
      ≠ .ok [(1, 1)] := by
  refine ⟨rfl, ?_⟩
  rw [show (update_stats "A" ["G"] [["1", "1"]] []
      ⟨[init_sample_stats "s"], []⟩).map
      (fun ls => ls.stats.map (fun st => (st.snps .A .G, st.variant_count)))
      = .ok [(2, 1)] from rfl]
  simp

/-! ### Accumulator analysis lemmas -/

theorem pure_ok {α : Type} {a b : α} : (pure a : Except VErr α) = .ok b ↔ a = b := by
  constructor
  · intro h; exact Except.ok.inj h
  · intro h; rw [h]; rfl

theorem update_ethnicity_nil (i : Nat) (v : Bool) (eth : List EthLoglik) :
    update_ethnicity i v [] eth = .ok eth := rfl

theorem eth_step_nil (i : Nat) (av : String) (eth : List EthLoglik) :
    eth_step i [] av eth = .ok eth := by
  unfold eth_step
  split
  · rfl
  · split
    · exact update_ethnicity_nil i false eth
    · exact update_ethnicity_nil i true eth

theorem SampleLE_refl (a : SampleStats) : SampleLE a a :=
  ⟨fun _ _ => le_refl _, le_refl _, le_refl _, le_refl _⟩

theorem SampleLE_trans {a b c : SampleStats} (hab : SampleLE a b)
    (hbc : SampleLE b c) : SampleLE a c := by
  obtain ⟨h1, h2, h3, h4⟩ := hab
  obtain ⟨g1, g2, g3, g4⟩ := hbc
  exact ⟨fun r col => le_trans (h1 r col) (g1 r col), le_trans h2 g2,
    le_trans h3 g3, le_trans h4 g4⟩

theorem StatsLE_refl (s : List SampleStats) : StatsLE s s := by
  refine ⟨rfl, fun j a b ha hb => ?_⟩
  rw [ha] at hb
  cases Option.some.inj hb
  exact SampleLE_refl a

theorem StatsLE_trans {s t u : List SampleStats} (hst : StatsLE s t)
    (htu : StatsLE t u) : StatsLE s u := by
  obtain ⟨hl, hp⟩ := hst
  obtain ⟨gl, gp⟩ := htu
  refine ⟨hl.trans gl, fun j a c ha hc => ?_⟩
  obtain ⟨hlt, _⟩ := List.get?_eq_some.mp ha
  have hlt' : j < t.length := hl ▸ hlt
  have hb := List.get?_eq_get hlt'
  exact SampleLE_trans (hp j a _ ha hb) (gp j _ c hb hc)

theorem StatsLE_set {stats : List SampleStats} {i : Nat} {st st' : SampleStats}
    (hget : stats.get? i = some st) (hle : SampleLE st st') :
    StatsLE stats (stats.set i st') := by
  refine ⟨(List.length_set stats i st').symm, fun j a b ha hb => ?_⟩
  rcases eq_or_ne i j with rfl | hne
  · obtain ⟨hlt, _⟩ := List.get?_eq_some.mp hget
    rw [List.get?_set_eq_of_lt _ hlt] at hb
    rw [hget] at ha
    cases Option.some.inj ha
    cases Option.some.inj hb
    exact hle
  · rw [List.get?_set_ne _ _ hne] at hb
    rw [ha] at hb
    cases Option.some.inj hb
    exact SampleLE_refl a

theorem SampleLE_snpsIncr (st : SampleStats) (r a : Base) :
    SampleLE st { st with snps := updateSnps st.snps r a } := by
  refine ⟨fun x y => ?_, le_refl _, le_refl _, le_refl _⟩
  unfold updateSnps
  dsimp only
  split
  · exact Nat.le_succ _
  · exact le_refl _

theorem counters_set_snps {stats : List SampleStats} {i : Nat} {st : SampleStats}
    (hget : stats.get? i = some st) (r a : Base) (j : Nat) :
    counters (stats.set i { st with snps := updateSnps st.snps r a }) j
      = counters stats j := by
  unfold counters
  rcases eq_or_ne i j with rfl | hne
  · obtain ⟨hlt, _⟩ := List.get?_eq_some.mp hget
    rw [List.get?_set_eq_of_lt _ hlt, hget]
    rfl
  · rw [List.get?_set_ne _ _ hne]

theorem counters_eq_vc {s t : List SampleStats} {j : Nat}
    (h : counters s j = counters t j) : vc s j = vc t j := by
  unfold counters at h
  unfold vc
  cases hs : s.get? j with
  | none =>
    rw [hs] at h
    cases ht : t.get? j with
    | none => rfl
    | some b => rw [ht] at h; simp at h
  | some a =>
    rw [hs] at h
    cases ht : t.get? j with
    | none => rw [ht] at h; simp at h
    | some b =>
      rw [ht] at h
      simp only [Option.map_some'] at h ⊢
      have := Option.some.inj h
      rw [show a.variant_count = b.variant_count from congrArg Prod.fst this]

theorem snpsIncr_ok {stats : List SampleStats} {i : Nat} {ref alt : String}
    {stats' : List SampleStats} (h : snpsIncr stats i ref alt = .ok stats') :
    ∃ st r a, stats.get? i = some st ∧ baseKey ref = .ok r ∧ baseKey alt = .ok a ∧
      stats' = stats.set i { st with snps := updateSnps st.snps r a } := by
  unfold snpsIncr at h
  rw [exceptBind_ok] at h
  obtain ⟨st, hst, h⟩ := h
  rw [exceptBind_ok] at h
  obtain ⟨r, hr, h⟩ := h
  rw [exceptBind_ok] at h
  obtain ⟨a, ha, h⟩ := h
  rw [pure_ok] at h
  exact ⟨st, r, a, pyGetNat_ok.mp hst, hr, ha, h.symm⟩

theorem process_allele_ok {ref : String} {alts : List String}
    {alt_types : List Nat} {i : Nat} {info : Info} {av : String}
    {acc out : LineState × List Int}
    (h : process_allele ref alts alt_types i info av acc = .ok out) :
    out.1.stats.length = acc.1.stats.length ∧
    (∀ j, counters out.1.stats j = counters acc.1.stats j) ∧
    out.2 = (if av ≠ "." ∧ av ≠ "0" then
        match pyInt av with
        | .ok n => insertIfAbsent acc.2 (n - 1)
        | .error _ => acc.2
      else acc.2) ∧
    StatsLE acc.1.stats out.1.stats ∧
    (info = [] → out.1.eth = acc.1.eth) ∧
    ((av = "." ∨ av = "0") → out.1.stats = acc.1.stats ∧ out.2 = acc.2) := by
  unfold process_allele at h
  rw [exceptBind_ok] at h
  obtain ⟨eth', heth, h⟩ := h
  have heth_nil : info = [] → eth' = acc.1.eth := by
    rintro rfl
    rw [eth_step_nil] at heth
    exact (Except.ok.inj heth).symm
  by_cases hav : av ≠ "." ∧ av ≠ "0"
  · rw [if_pos hav] at h
    simp only [exceptBind_ok] at h
    obtain ⟨n, hn, h⟩ := h
    obtain ⟨t, ht, h⟩ := h
    by_cases ht0 : t = 0
    · rw [if_pos ht0] at h
      simp only [exceptBind_ok, pure_ok] at h
      obtain ⟨alt, halt, stats', hsn, h⟩ := h
      obtain ⟨st, r, a, hget, _, _, rfl⟩ := snpsIncr_ok hsn
      subst h
      refine ⟨List.length_set _ _ _, fun j => counters_set_snps hget r a j, ?_,
        StatsLE_set hget (SampleLE_snpsIncr st r a), fun hinfo => heth_nil hinfo, ?_⟩
      · rw [if_pos hav, hn]
      · rintro (rfl | rfl)
        · exact absurd rfl hav.1
        · exact absurd rfl hav.2
    · rw [if_neg ht0] at h
      rw [pure_ok] at h
      subst h
      refine ⟨rfl, fun j => rfl, ?_, StatsLE_refl _, fun hinfo => heth_nil hinfo, ?_⟩
      · rw [if_pos hav, hn]
      · rintro (rfl | rfl)
        · exact absurd rfl hav.1
        · exact absurd rfl hav.2
  · rw [if_neg hav] at h
    rw [pure_ok] at h
    subst h
    exact ⟨rfl, fun j => rfl, by rw [if_neg hav], StatsLE_refl _,
      fun hinfo => heth_nil hinfo, fun _ => ⟨rfl, rfl⟩⟩

theorem gt_fold_ok {ref : String} {alts : List String} {alt_types : List Nat}
    {i : Nat} {info : Info} :
    ∀ (gt : List String) (acc out : LineState × List Int),
    gt_fold ref alts alt_types i info gt acc = .ok out →
    out.1.stats.length = acc.1.stats.length ∧
    (∀ j, counters out.1.stats j = counters acc.1.stats j) ∧
    out.2 = gt_variants gt acc.2 ∧
    StatsLE acc.1.stats out.1.stats ∧
    (info = [] → out.1.eth = acc.1.eth) ∧
    ((∀ av ∈ gt, av = "." ∨ av = "0") → out.1.stats = acc.1.stats ∧ out.2 = acc.2) := by
  intro gt
  induction gt with
  | nil =>
    intro acc out h
    unfold gt_fold at h
    cases Except.ok.inj h
    exact ⟨rfl, fun j => rfl, rfl, StatsLE_refl _, fun _ => rfl, fun _ => ⟨rfl, rfl⟩⟩
  | cons av rest ih =>
    intro acc out h
    unfold gt_fold at h
    rw [exceptBind_ok] at h
    obtain ⟨acc', hpa, hrest⟩ := h
    obtain ⟨pl, pc, pv, ple, pe, pf⟩ := process_allele_ok hpa
    obtain ⟨il, ic, iv, ile, ie, ifr⟩ := ih acc' out hrest
    refine ⟨il.trans pl, fun j => (ic j).trans (pc j), ?_, StatsLE_trans ple ile,
      fun hinfo => (ie hinfo).trans (pe hinfo), ?_⟩
    · rw [iv, pv]
      rfl
    · intro hall
      obtain ⟨ps, pvv⟩ := pf (hall av (List.mem_cons_self av rest))
      obtain ⟨is, ivv⟩ := ifr (fun g hg => hall g (List.mem_cons_of_mem av hg))
      exact ⟨is.trans ps, ivv.trans pvv⟩

theorem count_step_ok {alt_types : List Nat} {i : Nat} {ls ls' : LineState}
    {v : Int} (h : count_step alt_types i ls v = .ok ls') :
    ls'.eth = ls.eth ∧
    ls'.stats.length = ls.stats.length ∧
    StatsLE ls.stats ls'.stats ∧
    (∀ j, vc ls'.stats j
      = if j = i then (vc ls.stats j).map (· + 1) else vc ls.stats j) := by
  unfold count_step at h
  simp only [exceptBind_ok, pure_ok] at h
  obtain ⟨t, ht, st, hst, h⟩ := h
  subst h
  have hget := pyGetNat_ok.mp hst
  obtain ⟨hlt, _⟩ := List.get?_eq_some.mp hget
  refine ⟨rfl, List.length_set _ _ _, StatsLE_set hget ?_, fun j => ?_⟩
  · exact ⟨fun _ _ => le_refl _, Nat.le_succ _, Nat.le_add_right _ _,
      Nat.le_add_right _ _⟩
  · unfold vc
    dsimp only
    rcases eq_or_ne j i with rfl | hne
    · rw [if_pos rfl, List.get?_set_eq_of_lt _ hlt, hget]
      rfl
    · rw [if_neg hne, List.get?_set_ne _ _ (Ne.symm hne)]

theorem var_fold_ok {alt_types : List Nat} {i : Nat} :
    ∀ (vs : List Int) (ls ls' : LineState),
    var_fold alt_types i vs ls = .ok ls' →
    ls'.eth = ls.eth ∧ ls'.stats.length = ls.stats.length ∧
    StatsLE ls.stats ls'.stats ∧
    (∀ j, vc ls'.stats j
      = if j = i then (vc ls.stats j).map (· + vs.length) else vc ls.stats j) := by
  intro vs
  induction vs with
  | nil =>
    intro ls ls' h
    unfold var_fold at h
    cases Except.ok.inj h
    refine ⟨rfl, rfl, StatsLE_refl _, fun j => ?_⟩
    split
    · cases hc : vc ls.stats j <;> simp
    · rfl
  | cons v rest ih =>
    intro ls ls' h
    unfold var_fold at h
    rw [exceptBind_ok] at h
    obtain ⟨ls1, hcs, hrest⟩ := h
    obtain ⟨ce, cl, cle, cv⟩ := count_step_ok hcs
    obtain ⟨ie, il, ile, iv⟩ := ih ls1 ls' hrest
    refine ⟨ie.trans ce, il.trans cl, StatsLE_trans cle ile, fun j => ?_⟩
    rw [iv j, cv j]
    rcases eq_or_ne j i with rfl | hne
    · rw [if_pos rfl, if_pos rfl]
      cases hc : vc ls.stats j with
      | none => simp
      | some c =>
        simp only [Option.map_some']
        rw [show c + 1 + rest.length = c + (rest.length + 1) from by omega]
        rfl
    · rw [if_neg hne, if_neg hne, if_neg hne]

theorem process_genotype_ok {ref : String} {alts : List String}
    {alt_types : List Nat} {i : Nat} {info : Info} {gt : List String}
    {ls ls' : LineState}
    (h : process_genotype ref alts alt_types i info gt ls = .ok ls') :
    ls'.stats.length = ls.stats.length ∧
    StatsLE ls.stats ls'.stats ∧
    (info = [] → ls'.eth = ls.eth) ∧
    (∀ j, vc ls'.stats j = if j = i then
        (vc ls.stats j).map (· + (gt_variants gt []).length)
      else vc ls.stats j) ∧
    ((∀ av ∈ gt, av = "." ∨ av = "0") → ls'.stats = ls.stats) := by
  unfold process_genotype at h
  rw [exceptBind_ok] at h
  obtain ⟨acc1, hgf, hvf⟩ := h
  obtain ⟨gl, gc, gv, gle, ge, gf⟩ := gt_fold_ok gt (ls, []) acc1 hgf
  obtain ⟨ve, vl, vle, vv⟩ := var_fold_ok acc1.2 acc1.1 ls' hvf
  refine ⟨vl.trans gl, StatsLE_trans gle vle,
    fun hinfo => (ve.trans (ge hinfo)), fun j => ?_, ?_⟩
  · rw [vv j, counters_eq_vc (gc j), gv]
  · intro hall
    obtain ⟨hst, hvar⟩ := gf hall
    rw [hvar] at hvf
    unfold var_fold at hvf
    cases Except.ok.inj hvf
    exact hst

theorem body_fold_ok {ref : String} {alts : List String} {alt_types : List Nat}
    {info : Info} :
    ∀ (gts : List (List String)) (k : Nat) (ls ls' : LineState),
    body_fold ref alts alt_types info k gts ls = .ok ls' →
    ls'.stats.length = ls.stats.length ∧
    StatsLE ls.stats ls'.stats ∧
    (info = [] → ls'.eth = ls.eth) ∧
    (∀ j gt, k ≤ j → gts.get? (j - k) = some gt →
      vc ls'.stats j = (vc ls.stats j).map (· + (gt_variants gt []).length)) ∧
    (∀ j, j < k ∨ gts.length + k ≤ j → vc ls'.stats j = vc ls.stats j) ∧
    ((∀ gt ∈ gts, ∀ av ∈ gt, av = "." ∨ av = "0") → ls'.stats = ls.stats) := by
  intro gts
  induction gts with
  | nil =>
    intro k ls ls' h
    unfold body_fold at h
    cases Except.ok.inj h
    refine ⟨rfl, StatsLE_refl _, fun _ => rfl, fun j gt _ hget => ?_,
      fun j _ => rfl, fun _ => rfl⟩
    simp at hget
  | cons gt rest ih =>
    intro k ls ls' h
    unfold body_fold at h
    rw [exceptBind_ok] at h
    obtain ⟨ls1, hpg, hrest⟩ := h
    obtain ⟨pl, ple, pe, pv, pf⟩ := process_genotype_ok hpg
    obtain ⟨il, ile, ie, imain, iun, ifr⟩ := ih (k + 1) ls1 ls' hrest
    refine ⟨il.trans pl, StatsLE_trans ple ile,
      fun hinfo => (ie hinfo).trans (pe hinfo), ?_, ?_, ?_⟩
    · intro j g hk hget
      rcases Nat.eq_or_lt_of_le hk with rfl | hlt
      · rw [Nat.sub_self] at hget
        have hg : gt = g := by simpa using hget
        subst hg
        rw [iun k (Or.inl (Nat.lt_succ_self k)), pv k, if_pos rfl]
      · have hne : j ≠ k := fun hjk => by omega
        have hstep : j - k = (j - (k + 1)) + 1 := by omega
        rw [hstep] at hget
        rw [imain j g (by omega) (by simpa using hget), pv j, if_neg hne]
    · intro j hj
      rw [List.length_cons] at hj
      have hne : j ≠ k := by omega
      rw [iun j (by omega), pv j, if_neg hne]
    · intro hall
      have h1 := pf (hall gt (List.mem_cons_self gt rest))
      have h2 := ifr (fun g hg => hall g (List.mem_cons_of_mem gt hg))
      exact h2.trans h1

/-! ### Claim C1 (amended) -/

theorem insertIfAbsent_nodup {xs : List Int} (h : xs.Nodup) (x : Int) :
    (insertIfAbsent xs x).Nodup := by
  unfold insertIfAbsent
  split
  · exact h
  · next hx =>
    refine List.Nodup.append h (List.nodup_singleton x) ?_
    intro a ha hb
    rw [List.mem_singleton] at hb
    subst hb
    exact hx ha

theorem gt_variants_nodup : ∀ (gt : List String) (acc : List Int),
    acc.Nodup → (gt_variants gt acc).Nodup := by
  intro gt
  induction gt with
  | nil => intro acc h; exact h
  | cons av rest ih =>
    intro acc h
    unfold gt_variants
    apply ih
    split
    · split
      · exact insertIfAbsent_nodup h _
      · exact h
    · exact h

/-- Amended claim C1: for every body line and every sample, the
accumulator increments that sample's `variant_count` once per *distinct
alternate index* referenced by the sample's non-missing, non-reference
genotype tokens — by the size of that duplicate-free set, so exactly one
for a homozygous call referencing a single alternate, but two for a
genotype referencing two distinct (e.g. differently-classified)
alternates, not one as the claim stated. -/
theorem C1_amended (ref : String) (alts : List String)
    (gts : List (List String)) (info : Info) (ls ls' : LineState)
    (h : update_stats ref alts gts info ls = .ok ls')
    (i : Nat) (gt : List String) (hg : gts.get? i = some gt) :
    vc ls'.stats i = (vc ls.stats i).map (· + (gt_variants gt []).length) ∧
    (gt_variants gt []).Nodup := by
  constructor
  · unfold update_stats at h
    exact (body_fold_ok gts 0 ls ls' h).2.2.2.1 i gt (Nat.zero_le i)
      (by simpa using hg)
  · exact gt_variants_nodup gt [] List.nodup_nil

/-- Witness for the amended C1 at the concrete counterexample line:
one sample, genotype `1/2` over the alternates `["G", "GT"]`. -/
theorem C1_amended_witness :
    update_stats "A" ["G", "GT"] [["1", "2"]] [] ⟨[init_sample_stats "s"], []⟩
      = .ok ⟨[{ init_sample_stats "s" with
          snps := updateSnps (init_sample_stats "s").snps .A .G
          variant_count := 2, indel_count := 1 }], []⟩ ∧
    ([["1", "2"]] : List (List String)).get? 0 = some ["1", "2"] ∧
    vc [{ init_sample_stats "s" with
          snps := updateSnps (init_sample_stats "s").snps .A .G
          variant_count := 2, indel_count := 1 }] 0
      = (vc [init_sample_stats "s"] 0).map (· + (gt_variants ["1", "2"] []).length) :=
  ⟨rfl, rfl,
    (C1_amended "A" ["G", "GT"] [["1", "2"]] [] ⟨[init_sample_stats "s"], []⟩
      ⟨[{ init_sample_stats "s" with
          snps := updateSnps (init_sample_stats "s").snps .A .G
          variant_count := 2, indel_count := 1 }], []⟩ rfl 0 ["1", "2"] rfl).1⟩

/-! ### Claim C8 -/

/-! ### Claim C10 -/

theorem parse_body_line_disabled_info (total_fields total_samples : Nat)
    (line : String) (out : String × List String × List (List String) × Info)
    (h : parse_body_line false total_fields total_samples line = .ok out) :
    out.2.2.2 = [] := by
  simp only [parse_body_line] at h
  split at h
  · exact Except.noConfusion h
  · simp only [Bool.false_eq_true, if_false, exceptBind_ok, pure_ok] at h
    obtain ⟨ref, _, altsF, _, info, hinfo, fmtF, _, gti, _, gts, _, hout⟩ := h
    subst hout
    exact hinfo.symm

theorem update_stats_eth_nil (ref : String) (alts : List String)
    (gts : List (List String)) (ls ls' : LineState)
    (h : update_stats ref alts gts [] ls = .ok ls') : ls'.eth = ls.eth := by
  unfold update_stats at h
  exact (body_fold_ok gts 0 ls ls' h).2.2.1 rfl

theorem process_body_lines_eth_disabled (total_fields total_samples : Nat) :
    ∀ (lines : List String) (ls ls' : LineState),
    process_body_lines false total_fields total_samples lines ls = .ok ls' →
    ls'.eth = ls.eth := by
  intro lines
  induction lines with
  | nil =>
    intro ls ls' h
    unfold process_body_lines at h
    cases Except.ok.inj h
    rfl
  | cons line rest ih =>
    intro ls ls' h
    unfold process_body_lines at h
    rw [exceptBind_ok] at h
    obtain ⟨parsed, hp, h⟩ := h
    rw [exceptBind_ok] at h
    obtain ⟨ls1, hu, hrest⟩ := h
    have hinfo := parse_body_line_disabled_info _ _ _ _ hp
    rw [hinfo] at hu
    exact (ih ls1 ls' hrest).trans (update_stats_eth_nil _ _ _ _ _ hu)

/-- Claim C10: when the ethnicity flag is disabled at construction, the
ethnicity log-likelihood state stays untouched across parsing: the
frequency map produced by `parse_body_line` is always empty (the INFO
field is never parsed), the per-allele ethnicity dispatch is still
invoked for every token but performs no writes over an empty map, every
successful `update_stats` with an empty map preserves the ethnicity
state, and a whole body-parse from the disabled initial state leaves it
the empty list. -/
theorem C10_disabled_frame :
    (∀ (total_fields total_samples : Nat) (line : String)
      (out : String × List String × List (List String) × Info),
      parse_body_line false total_fields total_samples line = .ok out →
      out.2.2.2 = []) ∧
    (∀ (i : Nat) (av : String) (eth : List EthLoglik),
      eth_step i [] av eth = .ok eth) ∧
    (∀ (ref : String) (alts : List String) (gts : List (List String))
      (ls ls' : LineState),
      update_stats ref alts gts [] ls = .ok ls' → ls'.eth = ls.eth) ∧
    (∀ (total_fields total_samples : Nat) (lines names : List String)
      (ls' : LineState),
      process_body_lines false total_fields total_samples lines
        (init_state names false) = .ok ls' → ls'.eth = []) :=
  ⟨fun tf ts line out h => parse_body_line_disabled_info tf ts line out h,
   fun i av eth => eth_step_nil i av eth,
   fun ref alts gts ls ls' h => update_stats_eth_nil ref alts gts ls ls' h,
   fun tf ts lines _ ls' h =>
     (process_body_lines_eth_disabled tf ts lines _ ls' h).trans rfl⟩

/-- Witness for C10 at a concrete body line and a concrete `0/0` update. -/
theorem C10_disabled_frame_witness :
    parse_body_line false 11 2 "1 100 . A G 50 PASS . GT 0/1 1/1"
      = .ok ("A", ["G"], [["0", "1"], ["1", "1"]], ([] : Info)) ∧
    ("A", ["G"], [["0", "1"], ["1", "1"]], ([] : Info)).2.2.2 = ([] : Info) ∧
    update_stats "A" ["G"] [["0", "0"]] [] ⟨[init_sample_stats "s"], []⟩
      = .ok ⟨[init_sample_stats "s"], []⟩ ∧
    (⟨[init_sample_stats "s"], []⟩ : LineState).eth
      = (⟨[init_sample_stats "s"], []⟩ : LineState).eth :=
  ⟨rfl, C10_disabled_frame.1 11 2 "1 100 . A G 50 PASS . GT 0/1 1/1" _ rfl,
   rfl, C10_disabled_frame.2.2.1 "A" ["G"] [["0", "0"]] ⟨[init_sample_stats "s"], []⟩
     ⟨[init_sample_stats "s"], []⟩ rfl⟩

/-! ### Claim C6 -/

/-- Claim C6: for a recognized population allele frequency present on a
line and a non-missing allele token, `update_ethnicity` first clamps the
frequency — to 0.995 when within 0.0001 of 1.0, else to 0.005 when
within 0.0001 of 0.0, a clamp that keeps every genuine frequency in
[0,1] strictly inside (0,1) — then adds `ln af` to that population's
running total when the token is an alternate index (variant evidence,
dispatched with `is_variant = true`), `ln (1 - af)` when the token is
`0` (dispatched with `is_variant = false`), and adds nothing for a
missing token `.`; on a clamped value outside the logarithm's domain
the update instead raises `math.log`'s ValueError. -/
theorem C6_af_evidence (k pop : String) (hk : key_map_lookup k = some pop)
    (af : ℚ) (i : Nat) (eth : List EthLoglik) (e : EthLoglik)
    (he : eth.get? i = some e) :
    (0 < clampAF af →
      update_ethnicity i true [(k, af)] eth
        = .ok (eth.set i (addPop e pop (Real.log ((clampAF af : ℚ) : ℝ))))) ∧
    (clampAF af < 1 →
      update_ethnicity i false [(k, af)] eth
        = .ok (eth.set i (addPop e pop (Real.log ((1 - clampAF af : ℚ) : ℝ))))) ∧
    (clampAF af ≤ 0 →
      update_ethnicity i true [(k, af)] eth
        = .error (.valueError "math domain error")) ∧
    (1 ≤ clampAF af →
      update_ethnicity i false [(k, af)] eth
        = .error (.valueError "math domain error")) ∧
    (∀ x : ℚ, 0 ≤ x → x ≤ 1 → 0 < clampAF x ∧ clampAF x < 1) ∧
    (|1 - af| < 1 / 10000 → clampAF af = 995 / 1000) ∧
    (¬ |1 - af| < 1 / 10000 → |af| < 1 / 10000 → clampAF af = 5 / 1000) ∧
    (¬ |1 - af| < 1 / 10000 → ¬ |af| < 1 / 10000 → clampAF af = af) ∧
    (∀ (info : Info) (eth0 : List EthLoglik),
      eth_step i info "." eth0 = .ok eth0) ∧
    (∀ (info : Info) (eth0 : List EthLoglik),
      eth_step i info "0" eth0 = update_ethnicity i false info eth0) ∧
    (∀ (info : Info) (eth0 : List EthLoglik) (t : String), t ≠ "." → t ≠ "0" →
      eth_step i info t eth0 = update_ethnicity i true info eth0) := by
  refine ⟨?_, ?_, ?_, ?_, ?_, ?_, ?_, ?_, ?_, ?_, ?_⟩
  · intro hpos
    have hm : math_log (clampAF af) = .ok (Real.log ((clampAF af : ℚ) : ℝ)) := by
      unfold math_log
      rw [if_neg (not_le.mpr hpos)]
    have he2 : eth[i]? = some e := by rw [← List.get?_eq_getElem?]; exact he
    simp [update_ethnicity, hm, hk, he2, update_ethnicity_nil]
  · intro hlt
    have hm : math_log (1 - clampAF af)
        = .ok (Real.log ((1 - clampAF af : ℚ) : ℝ)) := by
      unfold math_log
      rw [if_neg (not_le.mpr (by linarith))]
    have he2 : eth[i]? = some e := by rw [← List.get?_eq_getElem?]; exact he
    simp [update_ethnicity, hm, hk, he2, update_ethnicity_nil]
  · intro hneg
    have hm : math_log (clampAF af) = .error (.valueError "math domain error") := by
      unfold math_log
      rw [if_pos hneg]
    simp [update_ethnicity, hm]
  · intro hge
    have hm : math_log (1 - clampAF af)
        = .error (.valueError "math domain error") := by
      unfold math_log
      rw [if_pos (by linarith)]
    simp [update_ethnicity, hm]
  · intro x h0 h1
    unfold clampAF
    split_ifs with hc1 hc2
    · norm_num
    · norm_num
    · rw [abs_of_nonneg h0] at hc2
      rw [abs_of_nonneg (by linarith : (0 : ℚ) ≤ 1 - x)] at hc1
      constructor
      · linarith [not_lt.mp hc2]
      · linarith [not_lt.mp hc1]
  · intro h1
    unfold clampAF
    rw [if_pos h1]
  · intro h1 h2
    unfold clampAF
    rw [if_neg h1, if_pos h2]
  · intro h1 h2
    unfold clampAF
    rw [if_neg h1, if_neg h2]
  · intro info eth0
    unfold eth_step
    rw [if_pos rfl]
  · intro info eth0
    unfold eth_step
    rw [if_neg (by decide : ¬ ("0" : String) = "."), if_pos rfl]
  · intro info eth0 t ht1 ht2
    unfold eth_step
    rw [if_neg ht1, if_neg ht2]

/-- Witness for C6 at the key `AMR_AF`, frequency 1/2, variant evidence. -/
theorem C6_af_evidence_witness :
    key_map_lookup "AMR_AF" = some "AMR" ∧
    ([init_ethnicity_loglik "s"].get? 0 = some (init_ethnicity_loglik "s")) ∧
    0 < clampAF ((1 : ℚ) / 2) ∧
    update_ethnicity 0 true [("AMR_AF", (1 : ℚ) / 2)] [init_ethnicity_loglik "s"]
      = .ok ([init_ethnicity_loglik "s"].set 0
          (addPop (init_ethnicity_loglik "s") "AMR"
            (Real.log ((clampAF ((1 : ℚ) / 2) : ℚ) : ℝ)))) :=
  ⟨rfl, rfl,
    by
      have h2 : |(1 : ℚ) / 2| = 1 / 2 := abs_of_nonneg (by norm_num)
      norm_num [clampAF, h2],
    (C6_af_evidence "AMR_AF" "AMR" rfl ((1 : ℚ) / 2) 0
      [init_ethnicity_loglik "s"] (init_ethnicity_loglik "s") rfl).1
      (by
        have h2 : |(1 : ℚ) / 2| = 1 / 2 := abs_of_nonneg (by norm_num)
        norm_num [clampAF, h2])⟩

/-! ### Per-token substitution-matrix tracking (claim C2) -/

theorem snp_hit_eval_trivial {ref : String} {alts : List String}
    {alt_types : List Nat} {r c : Base} {av : String}
    (hav : ¬(av ≠ "." ∧ av ≠ "0")) :
    snp_hit ref alts alt_types r c av = false := by
  unfold snp_hit
  rw [if_neg hav]

theorem snp_hit_eval_nonsnp {ref : String} {alts : List String}
    {alt_types : List Nat} {r c : Base} {av : String} {n : Int} {t : Nat}
    (hav : av ≠ "." ∧ av ≠ "0") (hn : pyInt av = .ok n)
    (ht : pyGetInt alt_types (n - 1) = .ok t) (ht0 : t ≠ 0) :
    snp_hit ref alts alt_types r c av = false := by
  unfold snp_hit
  rw [if_pos hav]
  simp [hn, ht, ht0]

theorem snp_hit_eval_snp {ref : String} {alts : List String}
    {alt_types : List Nat} {r c : Base} {av : String} {n : Int}
    {alt : String} {rr cc : Base}
    (hav : av ≠ "." ∧ av ≠ "0") (hn : pyInt av = .ok n)
    (ht : pyGetInt alt_types (n - 1) = .ok 0)
    (halt : pyGetInt alts (n - 1) = .ok alt)
    (hbr : baseKey ref = .ok rr) (hba : baseKey alt = .ok cc) :
    snp_hit ref alts alt_types r c av = (decide (rr = r) && decide (cc = c)) := by
  unfold snp_hit
  rw [if_pos hav]
  simp [hn, ht, halt, hbr, hba]

theorem updateSnps_apply (m : Base → Base → Nat) (rr cc r c : Base) :
    updateSnps m rr cc r c
      = m r c + (if decide (rr = r) && decide (cc = c) then 1 else 0) := by
  unfold updateSnps
  rcases eq_or_ne rr r with rfl | hr
  · rcases eq_or_ne cc c with rfl | hc
    · simp
    · simp [hc, Ne.symm hc]
  · simp [hr, Ne.symm hr]

theorem process_allele_snps {ref : String} {alts : List String}
    {alt_types : List Nat} {i : Nat} {info : Info} {av : String}
    {acc out : LineState × List Int}
    (h : process_allele ref alts alt_types i info av acc = .ok out)
    (r c : Base) (j : Nat) :
    snpsAt out.1.stats j r c =
      if j = i then
        (snpsAt acc.1.stats j r c).map
          (· + (if snp_hit ref alts alt_types r c av then 1 else 0))
      else snpsAt acc.1.stats j r c := by
  unfold process_allele at h
  rw [exceptBind_ok] at h
  obtain ⟨eth', heth, h⟩ := h
  by_cases hav : av ≠ "." ∧ av ≠ "0"
  · rw [if_pos hav] at h
    simp only [exceptBind_ok] at h
    obtain ⟨n, hn, t, ht, h⟩ := h
    by_cases ht0 : t = 0
    · subst ht0
      rw [if_pos rfl] at h
      simp only [exceptBind_ok, pure_ok] at h
      obtain ⟨alt, halt, stats', hsn, h⟩ := h
      obtain ⟨st, rr, cc, hget, hbr, hba, rfl⟩ := snpsIncr_ok hsn
      subst h
      rw [snp_hit_eval_snp hav hn ht halt hbr hba]
      rcases eq_or_ne j i with rfl | hne
      · rw [if_pos rfl]
        obtain ⟨hlt, _⟩ := List.get?_eq_some.mp hget
        unfold snpsAt
        dsimp only
        rw [List.get?_set_eq_of_lt _ hlt, hget]
        simp only [Option.map_some']
        rw [updateSnps_apply]
      · rw [if_neg hne]
        unfold snpsAt
        dsimp only
        rw [List.get?_set_ne _ _ (Ne.symm hne)]
    · rw [if_neg ht0] at h
      rw [pure_ok] at h
      subst h
      rw [snp_hit_eval_nonsnp hav hn ht ht0]
      rcases eq_or_ne j i with rfl | hne
      · rw [if_pos rfl]
        cases hs : snpsAt acc.1.stats j r c <;> simp [hs]
      · rw [if_neg hne]
  · rw [if_neg hav] at h
    rw [pure_ok] at h
    subst h
    rw [snp_hit_eval_trivial hav]
    rcases eq_or_ne j i with rfl | hne
    · rw [if_pos rfl]
      cases hs : snpsAt acc.1.stats j r c <;> simp [hs]
    · rw [if_neg hne]

theorem gt_fold_snps {ref : String} {alts : List String} {alt_types : List Nat}
    {i : Nat} {info : Info} :
    ∀ (gt : List String) (acc out : LineState × List Int),
    gt_fold ref alts alt_types i info gt acc = .ok out →
    ∀ (r c : Base) (j : Nat),
    snpsAt out.1.stats j r c =
      if j = i then
        (snpsAt acc.1.stats j r c).map
          (· + gt.countP (snp_hit ref alts alt_types r c))
      else snpsAt acc.1.stats j r c := by
  intro gt
  induction gt with
  | nil =>
    intro acc out h r c j
    unfold gt_fold at h
    cases Except.ok.inj h
    rw [List.countP_nil]
    split
    · cases hs : snpsAt acc.1.stats j r c <;> simp [hs]
    · rfl
  | cons av rest ih =>
    intro acc out h r c j
    unfold gt_fold at h
    rw [exceptBind_ok] at h
    obtain ⟨acc', hpa, hrest⟩ := h
    rw [ih acc' out hrest r c j, List.countP_cons]
    rcases eq_or_ne j i with rfl | hne
    · rw [if_pos rfl, if_pos rfl, process_allele_snps hpa r c j, if_pos rfl]
      cases hs : snpsAt acc.1.stats j r c with
      | none => simp
      | some x =>
        simp only [Option.map_some']
        rw [show x + (if snp_hit ref alts alt_types r c av then 1 else 0)
              + rest.countP (snp_hit ref alts alt_types r c)
            = x + (rest.countP (snp_hit ref alts alt_types r c)
              + if snp_hit ref alts alt_types r c av then 1 else 0) from by omega]
    · rw [if_neg hne, if_neg hne, process_allele_snps hpa r c j, if_neg hne]

theorem count_step_snps {alt_types : List Nat} {i : Nat} {ls ls' : LineState}
    {v : Int} (h : count_step alt_types i ls v = .ok ls') :
    ∀ (j : Nat) (r c : Base), snpsAt ls'.stats j r c = snpsAt ls.stats j r c := by
  unfold count_step at h
  simp only [exceptBind_ok, pure_ok] at h
  obtain ⟨t, ht, st, hst, h⟩ := h
  subst h
  intro j r c
  have hget := pyGetNat_ok.mp hst
  obtain ⟨hlt, _⟩ := List.get?_eq_some.mp hget
  unfold snpsAt
  dsimp only
  rcases eq_or_ne i j with rfl | hne
  · rw [List.get?_set_eq_of_lt _ hlt, hget]
    rfl
  · rw [List.get?_set_ne _ _ hne]

theorem var_fold_snps {alt_types : List Nat} {i : Nat} :
    ∀ (vs : List Int) (ls ls' : LineState),
    var_fold alt_types i vs ls = .ok ls' →
    ∀ (j : Nat) (r c : Base), snpsAt ls'.stats j r c = snpsAt ls.stats j r c := by
  intro vs
  induction vs with
  | nil =>
    intro ls ls' h j r c
    unfold var_fold at h
    cases Except.ok.inj h
    rfl
  | cons v rest ih =>
    intro ls ls' h j r c
    unfold var_fold at h
    rw [exceptBind_ok] at h
    obtain ⟨ls1, hcs, hrest⟩ := h
    rw [ih ls1 ls' hrest j r c, count_step_snps hcs j r c]

theorem process_genotype_snps {ref : String} {alts : List String}
    {alt_types : List Nat} {i : Nat} {info : Info} {gt : List String}
    {ls ls' : LineState}
    (h : process_genotype ref alts alt_types i info gt ls = .ok ls') :
    ∀ (r c : Base) (j : Nat),
    snpsAt ls'.stats j r c =
      if j = i then
        (snpsAt ls.stats j r c).map
          (· + gt.countP (snp_hit ref alts alt_types r c))
      else snpsAt ls.stats j r c := by
  unfold process_genotype at h
  rw [exceptBind_ok] at h
  obtain ⟨acc1, hgf, hvf⟩ := h
  intro r c j
  rw [var_fold_snps acc1.2 acc1.1 ls' hvf j r c, gt_fold_snps gt (ls, []) acc1 hgf r c j]

theorem body_fold_snps {ref : String} {alts : List String}
    {alt_types : List Nat} {info : Info} :
    ∀ (gts : List (List String)) (k : Nat) (ls ls' : LineState),
    body_fold ref alts alt_types info k gts ls = .ok ls' →
    (∀ j gt, k ≤ j → gts.get? (j - k) = some gt → ∀ (r c : Base),
      snpsAt ls'.stats j r c = (snpsAt ls.stats j r c).map
        (· + gt.countP (snp_hit ref alts alt_types r c))) ∧
    (∀ j, j < k ∨ gts.length + k ≤ j → ∀ (r c : Base),
      snpsAt ls'.stats j r c = snpsAt ls.stats j r c) := by
  intro gts
  induction gts with
  | nil =>
    intro k ls ls' h
    unfold body_fold at h
    cases Except.ok.inj h
    refine ⟨fun j gt _ hget => ?_, fun j _ r c => rfl⟩
    simp at hget
  | cons gt rest ih =>
    intro k ls ls' h
    unfold body_fold at h
    rw [exceptBind_ok] at h
    obtain ⟨ls1, hpg, hrest⟩ := h
    obtain ⟨imain, iun⟩ := ih (k + 1) ls1 ls'  hrest
    constructor
    · intro j g hk hget r c
      rcases Nat.eq_or_lt_of_le hk with rfl | hlt
      · rw [Nat.sub_self] at hget
        have hg : gt = g := by simpa using hget
        subst hg
        rw [iun k (Or.inl (Nat.lt_succ_self k)) r c,
          process_genotype_snps hpg r c k, if_pos rfl]
      · have hne : j ≠ k := fun hjk => by omega
        have hstep : j - k = (j - (k + 1)) + 1 := by omega
        rw [hstep] at hget
        rw [imain j g (by omega) (by simpa using hget) r c,
          process_genotype_snps hpg r c j, if_neg hne]
    · intro j hj r c
      rw [List.length_cons] at hj
      have hne : j ≠ k := by omega
      rw [iun j (by omega) r c, process_genotype_snps hpg r c j, if_neg hne]

/-- Amended claim C2, universal clause and homozygous instance: for every
body line and every sample, each substitution-matrix cell `(r, c)` grows
by the number of that sample's non-missing, non-reference allele tokens
whose alternate classifies as SNP with reference key `r` and alternate
key `c` — once per token, not once per distinct alternate index.  In
particular a genotype of `1/1` at a line with reference `A` and single
alternate `G` increments that sample's `snps[A][G]` by exactly 2 and
`variant_count` by exactly 1, leaving `indel_count`, `sv_count` and the
ethnicity state unchanged. -/
theorem C2_amended :
    (∀ (ref : String) (alts : List String) (gts : List (List String))
      (info : Info) (ls ls' : LineState),
      update_stats ref alts gts info ls = .ok ls' →
      ∀ (i : Nat) (gt : List String), gts.get? i = some gt →
      ∀ (r c : Base),
        snpsAt ls'.stats i r c = (snpsAt ls.stats i r c).map
          (· + gt.countP (snp_hit ref alts
            (alts.map (fun alt => vartypeOf ref.length alt.length)) r c))) ∧
    (∀ (st : SampleStats) (eth : List EthLoglik),
      (update_stats "A" ["G"] [["1", "1"]] [] ⟨[st], eth⟩).map
          (fun ls => ls.stats.map (fun s =>
            (s.snps .A .G, s.variant_count, s.indel_count, s.sv_count)))
        = .ok [(st.snps .A .G + 2, st.variant_count + 1,
            st.indel_count, st.sv_count)] ∧
      (update_stats "A" ["G"] [["1", "1"]] [] ⟨[st], eth⟩).map (fun ls => ls.eth)
        = .ok eth) := by
  constructor
  · intro ref alts gts info ls ls' h i gt hg r c
    unfold update_stats at h
    exact (body_fold_snps gts 0 ls ls' h).1 i gt (Nat.zero_le i)
      (by simpa using hg) r c
  · intro st eth
    exact ⟨rfl, rfl⟩

/-- Witness for the amended C2 at the concrete homozygous `1/1` line. -/
theorem C2_amended_witness :
    update_stats "A" ["G"] [["1", "1"]] [] ⟨[init_sample_stats "s"], []⟩
      = .ok ⟨[{ init_sample_stats "s" with
          snps := updateSnps (updateSnps (init_sample_stats "s").snps .A .G) .A .G
          variant_count := 1 }], []⟩ ∧
    ([["1", "1"]] : List (List String)).get? 0 = some ["1", "1"] ∧
    snpsAt [{ init_sample_stats "s" with
          snps := updateSnps (updateSnps (init_sample_stats "s").snps .A .G) .A .G
          variant_count := 1 }] 0 .A .G
      = (snpsAt [init_sample_stats "s"] 0 .A .G).map
          (· + (["1", "1"].countP (snp_hit "A" ["G"]
            (["G"].map (fun alt => vartypeOf "A".length alt.length)) .A .G))) :=
  ⟨rfl, rfl,
    C2_amended.1 "A" ["G"] [["1", "1"]] [] ⟨[init_sample_stats "s"], []⟩
      ⟨[{ init_sample_stats "s" with
          snps := updateSnps (updateSnps (init_sample_stats "s").snps .A .G) .A .G
          variant_count := 1 }], []⟩ rfl 0 ["1", "1"] rfl .A .G⟩

/-! ### Per-sample frame tracking (claim C8) -/

theorem process_allele_stats_shape {ref : String} {alts : List String}
    {alt_types : List Nat} {i : Nat} {info : Info} {av : String}
    {acc out : LineState × List Int}
    (h : process_allele ref alts alt_types i info av acc = .ok out) :
    out.1.stats = acc.1.stats ∨
    ∃ st', out.1.stats = acc.1.stats.set i st' := by
  unfold process_allele at h
  rw [exceptBind_ok] at h
  obtain ⟨eth', heth, h⟩ := h
  by_cases hav : av ≠ "." ∧ av ≠ "0"
  · rw [if_pos hav] at h
    simp only [exceptBind_ok] at h
    obtain ⟨n, hn, t, ht, h⟩ := h
    by_cases ht0 : t = 0
    · subst ht0
      rw [if_pos rfl] at h
      simp only [exceptBind_ok, pure_ok] at h
      obtain ⟨alt, halt, stats', hsn, h⟩ := h
      obtain ⟨st, rr, cc, hget, hbr, hba, rfl⟩ := snpsIncr_ok hsn
      subst h
      exact Or.inr ⟨_, rfl⟩
    · rw [if_neg ht0] at h
      rw [pure_ok] at h
      subst h
      exact Or.inl rfl
  · rw [if_neg hav] at h
    rw [pure_ok] at h
    subst h
    exact Or.inl rfl

theorem count_step_stats_shape {alt_types : List Nat} {i : Nat}
    {ls ls' : LineState} {v : Int} (h : count_step alt_types i ls v = .ok ls') :
    ∃ st', ls'.stats = ls.stats.set i st' := by
  unfold count_step at h
  simp only [exceptBind_ok, pure_ok] at h
  obtain ⟨t, ht, st, hst, h⟩ := h
  subst h
  exact ⟨_, rfl⟩

theorem gt_fold_get_ne {ref : String} {alts : List String}
    {alt_types : List Nat} {i : Nat} {info : Info} :
    ∀ (gt : List String) (acc out : LineState × List Int),
    gt_fold ref alts alt_types i info gt acc = .ok out →
    ∀ j, j ≠ i → out.1.stats.get? j = acc.1.stats.get? j := by
  intro gt
  induction gt with
  | nil =>
    intro acc out h j _
    unfold gt_fold at h
    cases Except.ok.inj h
    rfl
  | cons av rest ih =>
    intro acc out h j hne
    unfold gt_fold at h
    rw [exceptBind_ok] at h
    obtain ⟨acc', hpa, hrest⟩ := h
    rw [ih acc' out hrest j hne]
    rcases process_allele_stats_shape hpa with heq | ⟨st', heq⟩
    · rw [heq]
    · rw [heq, List.get?_set_ne _ _ (Ne.symm hne)]

theorem var_fold_get_ne {alt_types : List Nat} {i : Nat} :
    ∀ (vs : List Int) (ls ls' : LineState),
    var_fold alt_types i vs ls = .ok ls' →
    ∀ j, j ≠ i → ls'.stats.get? j = ls.stats.get? j := by
  intro vs
  induction vs with
  | nil =>
    intro ls ls' h j _
    unfold var_fold at h
    cases Except.ok.inj h
    rfl
  | cons v rest ih =>
    intro ls ls' h j hne
    unfold var_fold at h
    rw [exceptBind_ok] at h
    obtain ⟨ls1, hcs, hrest⟩ := h
    obtain ⟨st', heq⟩ := count_step_stats_shape hcs
    rw [ih ls1 ls' hrest j hne, heq, List.get?_set_ne _ _ (Ne.symm hne)]

theorem process_genotype_get_ne {ref : String} {alts : List String}
    {alt_types : List Nat} {i : Nat} {info : Info} {gt : List String}
    {ls ls' : LineState}
    (h : process_genotype ref alts alt_types i info gt ls = .ok ls') :
    ∀ j, j ≠ i → ls'.stats.get? j = ls.stats.get? j := by
  unfold process_genotype at h
  rw [exceptBind_ok] at h
  obtain ⟨acc1, hgf, hvf⟩ := h
  intro j hne
  rw [var_fold_get_ne acc1.2 acc1.1 ls' hvf j hne,
    gt_fold_get_ne gt (ls, []) acc1 hgf j hne]

theorem body_fold_sample_frame {ref : String} {alts : List String}
    {alt_types : List Nat} {info : Info} :
    ∀ (gts : List (List String)) (k : Nat) (ls ls' : LineState),
    body_fold ref alts alt_types info k gts ls = .ok ls' →
    (∀ j, j < k → ls'.stats.get? j = ls.stats.get? j) ∧
    (∀ i gt, k ≤ i → gts.get? (i - k) = some gt →
      (∀ av ∈ gt, av = "." ∨ av = "0") →
      ls'.stats.get? i = ls.stats.get? i) := by
  intro gts
  induction gts with
  | nil =>
    intro k ls ls' h
    unfold body_fold at h
    cases Except.ok.inj h
    exact ⟨fun j _ => rfl, fun i gt _ _ _ => rfl⟩
  | cons gt rest ih =>
    intro k ls ls' h
    unfold body_fold at h
    rw [exceptBind_ok] at h
    obtain ⟨ls1, hpg, hrest⟩ := h
    obtain ⟨ilt, ifr⟩ := ih (k + 1) ls1 ls' hrest
    constructor
    · intro j hj
      rw [ilt j (by omega), process_genotype_get_ne hpg j (by omega)]
    · intro i g hk hget htriv
      rcases Nat.eq_or_lt_of_le hk with rfl | hlt
      · rw [Nat.sub_self] at hget
        have hg : gt = g := by simpa using hget
        subst hg
        have hframe := (process_genotype_ok hpg).2.2.2.2 htriv
        rw [ilt k (Nat.lt_succ_self k), hframe]
      · have hstep : i - k = (i - (k + 1)) + 1 := by omega
        rw [hstep] at hget
        rw [ifr i g (by omega) (by simpa using hget) htriv,
          process_genotype_get_ne hpg i (fun hik => by omega)]

/-- Claim C8: for every sample, every substitution-matrix cell and the
counters `variant_count`, `indel_count`, `sv_count` are non-decreasing
across every successful body-line update; a line whose genotypes are all
reference (`0`) or missing (`.`) leaves the stats records unchanged; and
per sample, on any line — mixed genotypes included — a sample whose own
genotype is all-reference/missing keeps its entire stats record (matrix
and counters) unchanged. -/
theorem C8_monotone_frame :
    (∀ (ref : String) (alts : List String) (gts : List (List String))
      (info : Info) (ls ls' : LineState),
      update_stats ref alts gts info ls = .ok ls' → StatsLE ls.stats ls'.stats) ∧
    (∀ (ref : String) (alts : List String) (gts : List (List String))
      (info : Info) (ls ls' : LineState),
      (∀ gt ∈ gts, ∀ av ∈ gt, av = "." ∨ av = "0") →
      update_stats ref alts gts info ls = .ok ls' → ls'.stats = ls.stats) ∧
    (∀ (ref : String) (alts : List String) (gts : List (List String))
      (info : Info) (ls ls' : LineState),
      update_stats ref alts gts info ls = .ok ls' →
      ∀ (i : Nat) (gt : List String), gts.get? i = some gt →
      (∀ av ∈ gt, av = "." ∨ av = "0") →
      ls'.stats.get? i = ls.stats.get? i) := by
  refine ⟨?_, ?_, ?_⟩
  · intro ref alts gts info ls ls' h
    unfold update_stats at h
    exact (body_fold_ok gts 0 ls ls' h).2.1
  · intro ref alts gts info ls ls' hall h
    unfold update_stats at h
    exact (body_fold_ok gts 0 ls ls' h).2.2.2.2.2 hall
  · intro ref alts gts info ls ls' h i gt hg htriv
    unfold update_stats at h
    exact (body_fold_sample_frame gts 0 ls ls' h).2 i gt (Nat.zero_le i)
      (by simpa using hg) htriv

/-- Witness for C8: an all-`0/0` line, and a mixed line `0/0 1/1` on
which the first sample's record is untouched while the second changes. -/
theorem C8_monotone_frame_witness :
    update_stats "A" ["G"] [["0", "0"]] [] ⟨[init_sample_stats "s"], []⟩
      = .ok ⟨[init_sample_stats "s"], []⟩ ∧
    (∀ gt ∈ [["0", "0"]], ∀ av ∈ gt, av = "." ∨ av = "0") ∧
    StatsLE [init_sample_stats "s"] [init_sample_stats "s"] ∧
    ((⟨[init_sample_stats "s"], []⟩ : LineState).stats
      = (⟨[init_sample_stats "s"], []⟩ : LineState).stats) ∧
    update_stats "A" ["G"] [["0", "0"], ["1", "1"]] []
        ⟨[init_sample_stats "s1", init_sample_stats "s2"], []⟩
      = .ok ⟨[init_sample_stats "s1",
          { init_sample_stats "s2" with
            snps := updateSnps
              (updateSnps (init_sample_stats "s2").snps .A .G) .A .G
            variant_count := 1 }], []⟩ ∧
    ([["0", "0"], ["1", "1"]] : List (List String)).get? 0 = some ["0", "0"] ∧
    (∀ av ∈ ["0", "0"], av = "." ∨ av = "0") ∧
    ([init_sample_stats "s1",
        { init_sample_stats "s2" with
          snps := updateSnps
            (updateSnps (init_sample_stats "s2").snps .A .G) .A .G
          variant_count := 1 }] : List SampleStats).get? 0
      = ([init_sample_stats "s1", init_sample_stats "s2"] :
          List SampleStats).get? 0 :=
  ⟨rfl, of_decide_eq_true rfl,
    C8_monotone_frame.1 "A" ["G"] [["0", "0"]] [] ⟨[init_sample_stats "s"], []⟩
      ⟨[init_sample_stats "s"], []⟩ rfl,
    C8_monotone_frame.2.1 "A" ["G"] [["0", "0"]] []
      ⟨[init_sample_stats "s"], []⟩ ⟨[init_sample_stats "s"], []⟩
      (of_decide_eq_true rfl) rfl,
    rfl, rfl, of_decide_eq_true rfl,
    C8_monotone_frame.2.2 "A" ["G"] [["0", "0"], ["1", "1"]] []
      ⟨[init_sample_stats "s1", init_sample_stats "s2"], []⟩
      ⟨[init_sample_stats "s1",
        { init_sample_stats "s2" with
          snps := updateSnps
            (updateSnps (init_sample_stats "s2").snps .A .G) .A .G
          variant_count := 1 }], []⟩ rfl 0 ["0", "0"] rfl
      (of_decide_eq_true rfl)⟩

end VcfStats
